import Mathlib

/-!
Shallow embedding of `src/sensor_processing/src/sensor_processing_lib/sensor_fusion.cpp`
(namespace `sensor_processing`, class `SensorFusion`), the per-frame lidar
point-cloud → occupancy-grid pipeline.

Numbers: the C++ code computes in `float`/`double`; the embedding works over an
arbitrary linear ordered field `α` with floor (instantiated at `ℚ` for concrete
evaluation and at `ℝ` for trigonometric facts).  The C math-library calls
(`std::atan2`, `std::sqrt`, `std::sin`, `std::cos`, the constant `M_PI`) are
collected in a `MathOps α` parameter; `realOps` instantiates them with the
exact real functions.  `int(...)` casts of nonnegative quantities truncate
toward zero, embedded by `cTrunc`.
-/

namespace SensorProcessing

/-- C-style truncation toward zero, the `int(x)` cast of a floating value. -/
def cTrunc {α : Type} [LinearOrderedField α] [FloorRing α] (x : α) : ℤ :=
  if 0 ≤ x then ⌊x⌋ else -⌊-x⌋

/-- The math-library operations the source calls (`std::atan2`, `std::sqrt`,
`std::sin`, `std::cos`, `M_PI`), kept abstract so the pipeline can be
evaluated over `ℚ` and reasoned about over `ℝ`. -/
structure MathOps (α : Type) where
  pi : α
  sqrt : α → α
  atan2 : α → α → α
  sin : α → α
  cos : α → α

/-- A lidar point (`VPoint`: pcl point with x, y, z). -/
structure VPoint (α : Type) where
  x : α
  y : α
  z : α
deriving DecidableEq, Repr

/-- The three classification labels of `PolarCell::idx`
(`FREE`, `OCCUPIED`, `UNKNOWN`). -/
inductive Label where
  | FREE
  | OCCUPIED
  | UNKNOWN
deriving DecidableEq, Repr

/-- Modelled from the spec: the repository's header declaring `PolarCell` is
not under `src/`; §3 of the spec lists its per-frame fields: `count`,
`(x_min, y_min, z_min)`, `z_max`, `ground`, `height` and the label `idx`.
Numeric fields start at 0 and the label is undefined until the sweep runs
(we pick `UNKNOWN` as the inert default). -/
structure PolarCell (α : Type) where
  count : ℕ
  x_min : α
  y_min : α
  z_min : α
  z_max : α
  ground : α
  height : α
  idx : Label
deriving DecidableEq, Repr

/-- A freshly constructed cell, as the grid reset at line 146 produces. -/
def emptyCell {α : Type} [Zero α] : PolarCell α :=
  { count := 0, x_min := 0, y_min := 0, z_min := 0, z_max := 0,
    ground := 0, height := 0, idx := Label.UNKNOWN }

instance {α : Type} [Zero α] : Inhabited (PolarCell α) := ⟨emptyCell⟩

/-- The configuration read from the parameter server (constructor lines
27–54): `lidar_height`, `lidar_min_height`, `grid_min_range`,
`grid_max_range`, `grid_cell_size`, `grid_min_height`, `grid_segments`,
`ransac_tolerance`, `ransac_iterations`. -/
structure Config (α : Type) where
  lidar_height : α
  lidar_min_height : α
  grid_min_range : α
  grid_max_range : α
  grid_cell_size : α
  grid_min_height : α
  grid_segments : ℤ
  ransac_tolerance : α
  ransac_iterations : ℤ

/-- The full parameter block after the constructor has filled the derived
fields (integer-typed sizes truncate, per the spec's `floor` formulas, the
header with the declared types not being under `src/`). -/
structure Params (α : Type) extends Config α where
  lidar_opening_angle : α
  grid_height : ℤ
  grid_width : ℤ
  grid_bins : ℤ
  inv_angular_res : α
  inv_radial_res : α

variable {α : Type} [LinearOrderedField α] [FloorRing α]

/-- Constructor lines 32 and 45–58: `lidar_opening_angle = M_PI / 4`;
`grid_height = grid_max_range / grid_cell_size`;
`grid_width = grid_height * 2`;
`grid_bins = grid_max_range * sqrt(2) / grid_cell_size + 1`;
`inv_angular_res = 2 * grid_segments / M_PI`;
`inv_radial_res = 1 / grid_cell_size`. -/
def mkParams (m : MathOps α) (c : Config α) : Params α :=
  let gh : ℤ := cTrunc (c.grid_max_range / c.grid_cell_size)
  { c with
    lidar_opening_angle := m.pi / 4
    grid_height := gh
    grid_width := gh * 2
    grid_bins := cTrunc (c.grid_max_range * m.sqrt 2 / c.grid_cell_size + 1)
    inv_angular_res := 2 * (c.grid_segments : α) / m.pi
    inv_radial_res := 1 / c.grid_cell_size }

/-- The map `SensorFusion::fromVeloCoordsToPolarCell` (lines 457–468):
`mag = sqrt(x²+y²)`, `ang = -atan2(y,x)`,
`seg = int((ang + opening_angle) * inv_angular_res)`,
`bin = int(mag * inv_radial_res)`, and for the last segment the special case
`if (x == -y) seg = grid_segments - 1`. -/
def fromVeloCoordsToPolarCell (m : MathOps α) (p : Params α) (x y : α) : ℤ × ℤ :=
  let mag := m.sqrt (x * x + y * y)
  let ang := -m.atan2 y x
  let seg := cTrunc ((ang + p.lidar_opening_angle) * p.inv_angular_res)
  let bin := cTrunc (mag * p.inv_radial_res)
  if x = -y then (p.grid_segments - 1, bin) else (seg, bin)

/-- The inverse map `SensorFusion::fromPolarCellToVeloCoords` (lines 470–477):
`mag = bin / inv_radial_res`, `ang = seg / inv_angular_res - opening_angle`,
`y = -sin(ang) * mag`, `x = cos(ang) * mag`. -/
def fromPolarCellToVeloCoords (m : MathOps α) (p : Params α) (seg bin : ℤ) : α × α :=
  let mag := (bin : α) / p.inv_radial_res
  let ang := (seg : α) / p.inv_angular_res - p.lidar_opening_angle
  (m.cos ang * mag, -m.sin ang * mag)

/-- The polar grid `polar_grid_`, as a total table of cells indexed by
`(segment, bin)` (the C++ `vector<vector<PolarCell>>`; in-range indexing is
established separately as a theorem). -/
def Grid (α : Type) := ℤ × ℤ → PolarCell α

/-- Per-point cell statistics update (lines 180–198): increment `count`;
the first point sets `x_min, y_min, z_min, z_max`; afterwards a strictly
lower z replaces `(x_min, y_min, z_min)` and a strictly higher z replaces
`z_max`. -/
def updateCellStats (cell : PolarCell α) (pt : VPoint α) : PolarCell α :=
  let c := { cell with count := cell.count + 1 }
  if c.count = 1 then
    { c with x_min := pt.x, y_min := pt.y, z_min := pt.z, z_max := pt.z }
  else
    let c2 := if pt.z < c.z_min then
        { c with x_min := pt.x, y_min := pt.y, z_min := pt.z } else c
    if pt.z > c2.z_max then { c2 with z_max := pt.z } else c2

/-- One iteration of the filter/binning loop (lines 150–202): the nested
angle, range and height gates; a surviving point is appended to the filtered
cloud (the source records its index and extracts afterwards, preserving
order) and binned into the polar grid. -/
def binPoint (m : MathOps α) (p : Params α)
    (st : List (VPoint α) × Grid α) (pt : VPoint α) : List (VPoint α) × Grid α :=
  let angle := |m.atan2 pt.y pt.x|
  if angle < p.lidar_opening_angle then
    let range := m.sqrt (pt.x * pt.x + pt.y * pt.y)
    if range > p.grid_min_range ∧ range < p.grid_max_range then
      if pt.z > p.lidar_min_height then
        let c := fromVeloCoordsToPolarCell m p pt.x pt.y
        (st.1 ++ [pt], Function.update st.2 c (updateCellStats (st.2 c) pt))
      else st
    else st
  else st

/-- The whole filter/binning pass over the input cloud, starting from the
freshly reset polar grid (line 146). -/
def binCloud (m : MathOps α) (p : Params α) (pts : List (VPoint α)) :
    List (VPoint α) × Grid α :=
  pts.foldl (binPoint m p) ([], fun _ => emptyCell)

/-- The spec's formulation of the filter gate (§4.2 / §8 "Binning gate"):
`|atan2(y,x)| < opening_half_angle ∧ min_range < range < max_range ∧
z > min_height`, all strict. -/
def pointGate (m : MathOps α) (p : Params α) (pt : VPoint α) : Bool :=
  decide (|m.atan2 pt.y pt.x| < p.lidar_opening_angle ∧
    (p.grid_min_range < m.sqrt (pt.x * pt.x + pt.y * pt.y) ∧
      m.sqrt (pt.x * pt.x + pt.y * pt.y) < p.grid_max_range) ∧
    p.lidar_min_height < pt.z)

/-- The points of the input cloud routed to cell `(s, b)`: those that pass
the filter gate and whose coordinates map to `(s, b)`. -/
def routedTo (m : MathOps α) (p : Params α) (pts : List (VPoint α)) (s b : ℤ) :
    List (VPoint α) :=
  pts.filter fun pt =>
    pointGate m p pt && decide (fromVeloCoordsToPolarCell m p pt.x pt.y = (s, b))

/-- The flat-cell collection for the plane fit (lines 222–237): every cell
with `count > 0` and `z_max - z_min < grid_min_height` contributes the point
`(x_min, y_min, z_min)`, scanned segment-major. -/
def groundPlaneCloud (p : Params α) (grid : Grid α) : List (VPoint α) :=
  (List.range p.grid_segments.toNat).flatMap fun (i : ℕ) =>
    (List.range p.grid_bins.toNat).filterMap fun (j : ℕ) =>
      let cell := grid ((i : ℤ), (j : ℤ))
      if cell.count > 0 ∧ cell.z_max - cell.z_min < p.grid_min_height then
        some ⟨cell.x_min, cell.y_min, cell.z_min⟩
      else none

/-- The plane coefficients the external RANSAC fit fills into
`pcl::ModelCoefficients` (spec §6): `values[0..3] = (a, b, c, d)`.  The
inlier index set is a separate object; the pipeline only ever reads its
size, modelled as a plain `ℕ`. -/
structure PlaneCoeffs (α : Type) where
  a : α
  b : α
  c : α
  d : α

/-- The per-cell ground height from the plane model (lines 295–300):
`(-a*x - b*y - d) / c` at the cell's representative velodyne coordinates. -/
def groundAt (m : MathOps α) (p : Params α) (fit : PlaneCoeffs α) (s b : ℤ) : α :=
  let xy := fromPolarCellToVeloCoords m p s b
  (-fit.a * xy.1 - fit.b * xy.2 - fit.d) / fit.c

/-- One cell of the per-segment classification sweep (lines 289–338): set
`ground`; an empty cell is `UNKNOWN` when `hit` already holds, else `FREE`;
a filled cell gets `height = z_max - ground` and is `OCCUPIED` (setting
`hit`) when `height > grid_min_height`, else `UNKNOWN`/`FREE` like an empty
one.  Returns the updated cell and the `hit` flag after it. -/
def sweepCellStep (m : MathOps α) (p : Params α) (fit : PlaneCoeffs α)
    (s b : ℤ) (hit : Bool) (cell : PolarCell α) : PolarCell α × Bool :=
  let g := groundAt m p fit s b
  let c := { cell with ground := g }
  if c.count = 0 then
    ({ c with idx := if hit then Label.UNKNOWN else Label.FREE }, hit)
  else
    let h := c.z_max - g
    let c2 := { c with height := h }
    if h > p.grid_min_height then
      ({ c2 with idx := Label.OCCUPIED }, true)
    else
      ({ c2 with idx := if hit then Label.UNKNOWN else Label.FREE }, hit)

/-- The near-to-far sweep over one segment's bins (the inner loop of lines
286–339), starting at bin `b` with occlusion flag `hit`. -/
def sweepSeg (m : MathOps α) (p : Params α) (fit : PlaneCoeffs α) (s : ℤ) :
    Bool → ℤ → List (PolarCell α) → List (PolarCell α)
  | _, _, [] => []
  | hit, b, cell :: cells =>
    let r := sweepCellStep m p fit s b hit cell
    r.1 :: sweepSeg m p fit s r.2 (b + 1) cells

/-- Segment `s` of the polar grid as a near-to-far list of its bins. -/
def rowOf (p : Params α) (grid : Grid α) (s : ℤ) : List (PolarCell α) :=
  (List.range p.grid_bins.toNat).map fun (b : ℕ) => grid (s, (b : ℤ))

/-- The whole classification sweep (lines 280–340): each segment is swept
independently with `hit` reset to `false`; cells outside the table are
untouched. -/
def sweepGrid (m : MathOps α) (p : Params α) (fit : PlaneCoeffs α)
    (grid : Grid α) : Grid α :=
  fun c =>
    if 0 ≤ c.1 ∧ c.1 < p.grid_segments ∧ 0 ≤ c.2 ∧ c.2 < p.grid_bins then
      (sweepSeg m p fit c.1 false 0 (rowOf p grid c.1)).getD c.2.toNat emptyCell
    else grid c

/-- One iteration of the ground/elevated split (lines 346–366): the point's
cell is looked up by the same coordinate conversion; the point goes to the
elevated cloud iff `z > cell.ground ∧ cell.height > grid_min_height`, else
to the ground cloud.  State: `(ground, elevated)`. -/
def partitionStep (m : MathOps α) (p : Params α) (grid : Grid α)
    (st : List (VPoint α) × List (VPoint α)) (pt : VPoint α) :
    List (VPoint α) × List (VPoint α) :=
  let cell := grid (fromVeloCoordsToPolarCell m p pt.x pt.y)
  if pt.z > cell.ground ∧ cell.height > p.grid_min_height then
    (st.1, st.2 ++ [pt])
  else (st.1 ++ [pt], st.2)

/-- The ground/elevated partition of the whole filtered cloud
(lines 342–366). -/
def partitionClouds (m : MathOps α) (p : Params α) (grid : Grid α)
    (pts : List (VPoint α)) : List (VPoint α) × List (VPoint α) :=
  pts.foldl (partitionStep m p grid) ([], [])

/-- The elevation condition of the partition, as the spec states it:
`point.z > cell.ground ∧ cell.height > min_obstacle_height` for the point's
backing cell. -/
def elevGate (m : MathOps α) (p : Params α) (grid : Grid α) (pt : VPoint α) : Bool :=
  decide (pt.z > (grid (fromVeloCoordsToPolarCell m p pt.x pt.y)).ground ∧
    (grid (fromVeloCoordsToPolarCell m p pt.x pt.y)).height > p.grid_min_height)

/-- The vertical elevated-voxel column of an occupied cell (lines 420–424):
points `ground + k * cell_size` for as long as they stay below `z_max`
(the while loop `for(v = ground; v < z_max; v += cell_size)`, total for
`cell_size > 0`). -/
def elevColumn (p : Params α) (ground zmax : α) : List α :=
  (List.range (⌈(zmax - ground) / p.grid_cell_size⌉).toNat).map
    fun (k : ℕ) => ground + (k : α) * p.grid_cell_size

/-- The row-major list of raster indices `(j, i)` the voxelization loop
visits (lines 386–390): `j ∈ [0, grid_height)`, `i ∈ [j, grid_width - j)`. -/
def footprintPairs (p : Params α) : List (ℕ × ℕ) :=
  (List.range p.grid_height.toNat).flatMap fun j =>
    (List.range' j (p.grid_width.toNat - 2 * j)).map fun i => (j, i)

/-- The representative cartesian coordinates of raster cell `(j, i)`:
`x = grid_max_range - cell_size/2 - j*cell_size` and `y = x - (i-j)*cell_size`
(the decrementing `x`, `y` of lines 386–390 in closed form). -/
def rasterXY (p : Params α) (j i : ℕ) : α × α :=
  let x := p.grid_max_range - p.grid_cell_size / 2 - (j : α) * p.grid_cell_size
  (x, x - ((i : α) - (j : α)) * p.grid_cell_size)

/-- One step of the voxelization loop (lines 392–426): look the backing
polar cell up, append the ground voxel, write the raster value from the
label (`FREE → 0`, `UNKNOWN → 50`, else `→ 100`), and for an occupied cell
append its elevated-voxel column.  State: (raster data, ground voxels,
elevated voxels). -/
def rasterStep (m : MathOps α) (p : Params α) (grid : Grid α)
    (st : (ℕ → ℤ) × List (VPoint α) × List (VPoint α)) (ji : ℕ × ℕ) :
    (ℕ → ℤ) × List (VPoint α) × List (VPoint α) :=
  let xy := rasterXY p ji.1 ji.2
  let cell := grid (fromVeloCoordsToPolarCell m p xy.1 xy.2)
  let voxG := st.2.1 ++ [⟨xy.1, xy.2, cell.ground⟩]
  let k := ji.1 * p.grid_width.toNat + ji.2
  match cell.idx with
  | Label.FREE => (Function.update st.1 k 0, voxG, st.2.2)
  | Label.UNKNOWN => (Function.update st.1 k 50, voxG, st.2.2)
  | Label.OCCUPIED =>
    (Function.update st.1 k 100, voxG,
      st.2.2 ++ (elevColumn p cell.ground cell.z_max).map fun v => ⟨xy.1, xy.2, v⟩)

/-- The whole polar→cartesian voxelization pass (lines 381–427) over a given
raster buffer. -/
def rasterize (m : MathOps α) (p : Params α) (grid : Grid α) (data : ℕ → ℤ) :
    (ℕ → ℤ) × List (VPoint α) × List (VPoint α) :=
  (footprintPairs p).foldl (rasterStep m p grid) (data, [], [])

/-- The row-major list of all raster indices `(j, i)` with `j < H`,
`i < W`, as the constructor's double loop (lines 91–92) visits them. -/
def allPairs (H W : ℕ) : List (ℕ × ℕ) :=
  (List.range H).flatMap fun j => (List.range W).map fun i => (j, i)

/-- One step of the constructor's raster initialization (lines 95–97):
a cell with `i < j ∨ i ≥ grid_width - j` is written `-1`, any other is left
alone. -/
def initStep (W : ℕ) (d : ℕ → ℤ) (ji : ℕ × ℕ) : ℕ → ℤ :=
  if ji.2 < ji.1 ∨ W - ji.1 ≤ ji.2 then
    Function.update d (ji.1 * W + ji.2) (-1)
  else d

/-- The constructor's initialization of the occupancy raster (lines 78 and
91–99): the buffer starts zeroed (`resize`), then the boundary cells are
written `-1`. -/
def initData (p : Params α) : ℕ → ℤ :=
  (allPairs p.grid_height.toNat p.grid_width.toNat).foldl
    (initStep p.grid_width.toNat) (fun _ => 0)

/-- Everything one call of `SensorFusion::process` publishes. -/
structure FrameOutput (α : Type) where
  filtered : List (VPoint α)
  groundPlanePts : List (VPoint α)
  groundHeight : α
  warning : Bool
  grid : Grid α
  groundPts : List (VPoint α)
  elevatedPts : List (VPoint α)
  rasterData : ℕ → ℤ
  voxelGround : List (VPoint α)
  voxelElevated : List (VPoint α)

/-- The frame handler `SensorFusion::process` (lines 128–455): filter/bin the
cloud, collect the flat-cell ground candidates, take the external fit's
result, compute `ground_height = -d/c`, raise the warning flag when the
inlier set is empty or the height is implausible (line 257), run the
classification sweep, partition the filtered cloud, and rasterize onto the
(frame-carried) raster buffer `data`. -/
def process (m : MathOps α) (p : Params α) (pts : List (VPoint α))
    (fit : PlaneCoeffs α) (inliers : ℕ) (data : ℕ → ℤ) : FrameOutput α :=
  let fb := binCloud m p pts
  let gpPts := groundPlaneCloud p fb.2
  let gh := -fit.d / fit.c
  let warn : Bool := decide (inliers = 0 ∨ gh < -2 ∨ gh > -(3 / 2 : α))
  let grid' := sweepGrid m p fit fb.2
  let ge := partitionClouds m p grid' fb.1
  let rast := rasterize m p grid' data
  { filtered := fb.1
    groundPlanePts := gpPts
    groundHeight := gh
    warning := warn
    grid := grid'
    groundPts := ge.1
    elevatedPts := ge.2
    rasterData := rast.1
    voxelGround := rast.2.1
    voxelElevated := rast.2.2 }

/-! ### Concrete instances for evaluation

A computable stand-in for the math library over `ℚ`, used to run the
pipeline on concrete inputs: claims quantify over the `MathOps` parameter,
so any instantiation is admissible there. -/

/-- A computable `MathOps ℚ` for concrete runs: `pi := 4` (so the opening
half-angle is 1), `sqrt := id` (so `sqrt 2 = 2 ≥ 1`), `atan2 := 0`,
`sin := 0`, `cos := 1`. -/
def qOps : MathOps ℚ :=
  { pi := 4, sqrt := id, atan2 := fun _ _ => 0, sin := fun _ => 0, cos := fun _ => 1 }

/-- A small concrete configuration for concrete runs. -/
def cfgDemo : Config ℚ :=
  { lidar_height := 173 / 100, lidar_min_height := 0, grid_min_range := 1 / 2,
    grid_max_range := 2, grid_cell_size := 1, grid_min_height := 1 / 5,
    grid_segments := 4, ransac_tolerance := 1 / 5, ransac_iterations := 50 }

/-- The derived parameter block of `cfgDemo` under `qOps`. -/
def pDemo : Params ℚ := mkParams qOps cfgDemo

/-- A horizontal plane through the origin (`a = b = d = 0`, `c = 1`),
whose ground height is 0 everywhere. -/
def fitDemo : PlaneCoeffs ℚ := { a := 0, b := 0, c := 1, d := 0 }

/-- A grid whose every cell carries `ground = 1` and `height = 1/20`
(a cell that was not classified occupied: its height is below the
`grid_min_height = 1/5` of `cfgDemo`). -/
def lowCellGrid : Grid ℚ := fun _ => { emptyCell with ground := 1, height := 1 / 20 }

/-- The four-bin scenario segment: empty, occupied (its point at
`z = 0.5`), empty, empty. -/
def demoCells : List (PolarCell ℚ) :=
  [emptyCell, { emptyCell with count := 1, z_min := 1 / 2, z_max := 1 / 2 },
    emptyCell, emptyCell]

/-- The raster value written for each label (lines 407–417): `FREE → 0`,
`UNKNOWN → 50`, anything else `→ 100`. -/
def labelValue : Label → ℤ
  | Label.FREE => 0
  | Label.UNKNOWN => 50
  | Label.OCCUPIED => 100

/-- A gate-passing demo point straight ahead of the sensor. -/
def ptDemo : VPoint ℚ := ⟨1, 0, 1⟩

/-! ### The real-number math library

`std::atan2`, `std::sqrt`, `std::sin`, `std::cos` and `M_PI` with their exact
real semantics, for the trigonometric round-trip facts. -/

/-- The function `std::atan2 y x` over the reals. -/
noncomputable def atan2R (y x : ℝ) : ℝ :=
  if 0 < x then Real.arctan (y / x)
  else if x < 0 then
    (if 0 ≤ y then Real.arctan (y / x) + Real.pi
      else Real.arctan (y / x) - Real.pi)
  else
    (if 0 < y then Real.pi / 2 else if y < 0 then -(Real.pi / 2) else 0)

/-- The math library over `ℝ`. -/
noncomputable def realOps : MathOps ℝ :=
  { pi := Real.pi, sqrt := Real.sqrt, atan2 := atan2R,
    sin := Real.sin, cos := Real.cos }

/-- The demo configuration over `ℝ`. -/
noncomputable def cfgDemoR : Config ℝ :=
  { lidar_height := 173 / 100, lidar_min_height := 0, grid_min_range := 1 / 2,
    grid_max_range := 2, grid_cell_size := 1, grid_min_height := 1 / 5,
    grid_segments := 4, ransac_tolerance := 1 / 5, ransac_iterations := 50 }

/-- The derived parameter block of `cfgDemoR` under the real math library. -/
noncomputable def pDemoR : Params ℝ := mkParams realOps cfgDemoR

/-! ### Claim theorems -/

/-- Truncation `int(x)` agrees with the floor for a nonnegative argument. -/
theorem cTrunc_of_nonneg {x : α} (h : 0 ≤ x) : cTrunc x = ⌊x⌋ := if_pos h

/-- Claim C9: the constructor's derived quantities satisfy
`grid_bins = ⌊max_range·√2/cell_size⌋ + 1`,
`grid_height = ⌊max_range/cell_size⌋`, `grid_width = 2·grid_height`,
`inv_angular_res = 2·segments/π` and `inv_radial_res = 1/cell_size` for
every valid configuration (nonnegative range, positive cell size); they are
computed once in `mkParams` and `process` only ever reads them. -/
theorem derived_sizing (m : MathOps α) (c : Config α)
    (hmax : 0 ≤ c.grid_max_range) (hcell : 0 < c.grid_cell_size)
    (hs2 : 0 ≤ m.sqrt 2) :
    (mkParams m c).grid_bins = ⌊c.grid_max_range * m.sqrt 2 / c.grid_cell_size⌋ + 1 ∧
    (mkParams m c).grid_height = ⌊c.grid_max_range / c.grid_cell_size⌋ ∧
    (mkParams m c).grid_width = 2 * (mkParams m c).grid_height ∧
    (mkParams m c).inv_angular_res = 2 * (c.grid_segments : α) / m.pi ∧
    (mkParams m c).inv_radial_res = 1 / c.grid_cell_size := by
  have hu : (0 : α) ≤ c.grid_max_range * m.sqrt 2 / c.grid_cell_size :=
    div_nonneg (mul_nonneg hmax hs2) hcell.le
  have hh : (0 : α) ≤ c.grid_max_range / c.grid_cell_size := div_nonneg hmax hcell.le
  refine ⟨?_, ?_, ?_, rfl, rfl⟩
  · show cTrunc (c.grid_max_range * m.sqrt 2 / c.grid_cell_size + 1) = _
    rw [cTrunc_of_nonneg (by linarith), Int.floor_add_one]
  · exact cTrunc_of_nonneg hh
  · show cTrunc (c.grid_max_range / c.grid_cell_size) * 2 = _
    exact mul_comm _ 2

/-- Claim C9, witness: the derived-sizing equations hold at the concrete
configuration `cfgDemo` under `qOps`. -/
theorem derived_sizing_witness :
    pDemo.grid_bins = ⌊cfgDemo.grid_max_range * qOps.sqrt 2 / cfgDemo.grid_cell_size⌋ + 1 ∧
    pDemo.grid_height = ⌊cfgDemo.grid_max_range / cfgDemo.grid_cell_size⌋ ∧
    pDemo.grid_width = 2 * pDemo.grid_height ∧
    pDemo.inv_angular_res = 2 * (cfgDemo.grid_segments : ℚ) / qOps.pi ∧
    pDemo.inv_radial_res = 1 / cfgDemo.grid_cell_size :=
  derived_sizing qOps cfgDemo (by decide) (by decide) (by decide)

/-- The nested gates of the binning loop, collapsed to the single spec-form
predicate `pointGate`. -/
theorem binPoint_eq_gate (m : MathOps α) (p : Params α)
    (st : List (VPoint α) × Grid α) (pt : VPoint α) :
    binPoint m p st pt =
      if pointGate m p pt then
        let c := fromVeloCoordsToPolarCell m p pt.x pt.y
        (st.1 ++ [pt], Function.update st.2 c (updateCellStats (st.2 c) pt))
      else st := by
  unfold binPoint pointGate
  by_cases h1 : |m.atan2 pt.y pt.x| < p.lidar_opening_angle <;>
    by_cases h2 : p.grid_min_range < m.sqrt (pt.x * pt.x + pt.y * pt.y) ∧
      m.sqrt (pt.x * pt.x + pt.y * pt.y) < p.grid_max_range <;>
    by_cases h3 : p.lidar_min_height < pt.z <;>
    simp [h1, h2, h3, gt_iff_lt, and_comm]

theorem binCloud_filtered_aux (m : MathOps α) (p : Params α) :
    ∀ (pts : List (VPoint α)) (st : List (VPoint α) × Grid α),
      (pts.foldl (binPoint m p) st).1 = st.1 ++ pts.filter (pointGate m p)
  | [], _ => by simp
  | pt :: pts, st => by
    rw [List.foldl_cons, binCloud_filtered_aux m p pts, binPoint_eq_gate]
    by_cases hg : pointGate m p pt <;> simp [hg]

theorem binCloud_filtered (m : MathOps α) (p : Params α) (pts : List (VPoint α)) :
    (binCloud m p pts).1 = pts.filter (pointGate m p) := by
  rw [binCloud, binCloud_filtered_aux]
  simp

/-- Claim C3: a point appears in the filtered cloud iff it passes the strict
angle, range and height gates, and the filtered cloud is the order-preserving
subsequence of the input selected by that gate (`List.filter`). -/
theorem filtered_cloud_eq (m : MathOps α) (p : Params α) (pts : List (VPoint α)) :
    (binCloud m p pts).1 = pts.filter (pointGate m p) :=
  binCloud_filtered m p pts

/-- Each voxelization step appends exactly one ground-voxel point. -/
theorem rasterize_ground_voxel_count (m : MathOps α) (p : Params α) (grid : Grid α) :
    ∀ (l : List (ℕ × ℕ)) (st : (ℕ → ℤ) × List (VPoint α) × List (VPoint α)),
      (l.foldl (rasterStep m p grid) st).2.1.length = st.2.1.length + l.length
  | [], _ => by simp
  | ji :: l, st => by
    rw [List.foldl_cons, rasterize_ground_voxel_count m p grid l]
    have : (rasterStep m p grid st ji).2.1.length = st.2.1.length + 1 := by
      unfold rasterStep
      cases h : (grid (fromVeloCoordsToPolarCell m p (rasterXY p ji.1 ji.2).1
        (rasterXY p ji.1 ji.2).2)).idx <;> simp [h]
    rw [this, List.length_cons]
    omega

/-- Claim C2: a frame whose robust fit returns zero inliers produces exactly
the same published output as the same frame with any other inlier count —
the inlier count reaches only the warning flag, which a zero-inlier fit
raises; the pipeline is total and still emits one ground voxel per visitable
raster cell.  (The fitter is the external PCL collaborator, modelled at the
interface the spec gives it: four coefficients plus an inlier count.) -/
theorem degraded_fit_full_output (m : MathOps α) (p : Params α)
    (pts : List (VPoint α)) (a b c d : α) (n : ℕ) (data : ℕ → ℤ) :
    (process m p pts ⟨a, b, c, d⟩ 0 data).filtered =
        (process m p pts ⟨a, b, c, d⟩ n data).filtered ∧
    (process m p pts ⟨a, b, c, d⟩ 0 data).groundPlanePts =
        (process m p pts ⟨a, b, c, d⟩ n data).groundPlanePts ∧
    (process m p pts ⟨a, b, c, d⟩ 0 data).groundHeight =
        (process m p pts ⟨a, b, c, d⟩ n data).groundHeight ∧
    (process m p pts ⟨a, b, c, d⟩ 0 data).grid =
        (process m p pts ⟨a, b, c, d⟩ n data).grid ∧
    (process m p pts ⟨a, b, c, d⟩ 0 data).groundPts =
        (process m p pts ⟨a, b, c, d⟩ n data).groundPts ∧
    (process m p pts ⟨a, b, c, d⟩ 0 data).elevatedPts =
        (process m p pts ⟨a, b, c, d⟩ n data).elevatedPts ∧
    (process m p pts ⟨a, b, c, d⟩ 0 data).rasterData =
        (process m p pts ⟨a, b, c, d⟩ n data).rasterData ∧
    (process m p pts ⟨a, b, c, d⟩ 0 data).voxelGround =
        (process m p pts ⟨a, b, c, d⟩ n data).voxelGround ∧
    (process m p pts ⟨a, b, c, d⟩ 0 data).voxelElevated =
        (process m p pts ⟨a, b, c, d⟩ n data).voxelElevated ∧
    (process m p pts ⟨a, b, c, d⟩ 0 data).voxelGround.length =
        (footprintPairs p).length ∧
    (process m p pts ⟨a, b, c, d⟩ 0 data).warning = true := by
  refine ⟨rfl, rfl, rfl, rfl, rfl, rfl, rfl, rfl, rfl, ?_, ?_⟩
  · have := rasterize_ground_voxel_count m p
      (sweepGrid m p ⟨a, b, c, d⟩ (binCloud m p pts).2) (footprintPairs p)
      (data, [], [])
    simpa [process, rasterize] using this
  · simp [process]


theorem partitionStep_eq_gate (m : MathOps α) (p : Params α) (grid : Grid α)
    (st : List (VPoint α) × List (VPoint α)) (pt : VPoint α) :
    partitionStep m p grid st pt =
      if elevGate m p grid pt then (st.1, st.2 ++ [pt]) else (st.1 ++ [pt], st.2) := by
  unfold partitionStep elevGate
  by_cases h : pt.z > (grid (fromVeloCoordsToPolarCell m p pt.x pt.y)).ground ∧
      (grid (fromVeloCoordsToPolarCell m p pt.x pt.y)).height > p.grid_min_height <;>
    simp [h]

theorem partition_fold (m : MathOps α) (p : Params α) (grid : Grid α) :
    ∀ (pts : List (VPoint α)) (st : List (VPoint α) × List (VPoint α)),
      pts.foldl (partitionStep m p grid) st =
        (st.1 ++ pts.filter (fun pt => !(elevGate m p grid pt)),
          st.2 ++ pts.filter (elevGate m p grid))
  | [], st => by simp
  | pt :: pts, st => by
    rw [List.foldl_cons, partition_fold m p grid pts, partitionStep_eq_gate]
    by_cases hg : elevGate m p grid pt <;> simp [hg]

/-- Claim C5: a filtered point lands in the elevated cloud iff
`z > cell.ground ∧ cell.height > grid_min_height` for its backing cell and
in the ground cloud otherwise; in particular a point at `z = ground + 0.1`
over a cell of height `0.05 < 0.2` goes to the ground cloud even though its
own z exceeds the cell's ground. -/
theorem partition_gate :
    (∀ (β : Type) [LinearOrderedField β] [FloorRing β] (m : MathOps β)
        (p : Params β) (grid : Grid β) (pts : List (VPoint β)),
      (partitionClouds m p grid pts).1 =
          pts.filter (fun pt => !(elevGate m p grid pt)) ∧
      (partitionClouds m p grid pts).2 = pts.filter (elevGate m p grid)) ∧
    partitionClouds qOps pDemo lowCellGrid [⟨1, 0, 11 / 10⟩] =
      ([⟨1, 0, 11 / 10⟩], []) := by
  constructor
  · intro β _ _ m p grid pts
    rw [partitionClouds, partition_fold]
    simp
  · norm_num [partitionClouds, partitionStep, lowCellGrid, pDemo, mkParams,
      cfgDemo, emptyCell]

theorem sweepCellStep_hit_true (m : MathOps α) (p : Params α) (fit : PlaneCoeffs α)
    (s b : ℤ) (c : PolarCell α) : (sweepCellStep m p fit s b true c).2 = true := by
  unfold sweepCellStep
  by_cases h0 : c.count = 0 <;>
    by_cases hh : c.z_max - groundAt m p fit s b > p.grid_min_height <;>
    simp [h0, hh]

theorem sweepCellStep_occ_hit (m : MathOps α) (p : Params α) (fit : PlaneCoeffs α)
    (s b : ℤ) (hit : Bool) (c : PolarCell α)
    (hocc : (sweepCellStep m p fit s b hit c).1.idx = Label.OCCUPIED) :
    (sweepCellStep m p fit s b hit c).2 = true := by
  unfold sweepCellStep at hocc ⊢
  by_cases h0 : c.count = 0 <;>
    by_cases hh : c.z_max - groundAt m p fit s b > p.grid_min_height <;>
    cases hit <;> simp [h0, hh] at hocc ⊢

theorem sweep_after_hit (m : MathOps α) (p : Params α) (fit : PlaneCoeffs α) (s : ℤ) :
    ∀ (cells : List (PolarCell α)) (b : ℤ) (j : ℕ), j < cells.length →
      ((cells.getD j emptyCell).count = 0 ∨
        (cells.getD j emptyCell).z_max - groundAt m p fit s (b + j) ≤ p.grid_min_height) →
      ((sweepSeg m p fit s true b cells).getD j emptyCell).idx = Label.UNKNOWN
  | [], _, j, hj, _ => by simp at hj
  | c :: cells, b, 0, _, hlow => by
    simp only [List.getD_cons_zero] at hlow ⊢
    rw [sweepSeg]
    simp only [List.getD_cons_zero]
    unfold sweepCellStep
    rcases hlow with h0 | hle
    · simp [h0]
    · by_cases h0 : c.count = 0
      · simp [h0]
      · have hle' : c.z_max - groundAt m p fit s b ≤ p.grid_min_height := by
          simpa using hle
        simp [h0, not_lt.mpr hle']
  | c :: cells, b, j + 1, hj, hlow => by
    simp only [List.getD_cons_succ] at hlow ⊢
    rw [sweepSeg]
    simp only [List.getD_cons_succ]
    rw [sweepCellStep_hit_true]
    have harg : b + 1 + (j : ℤ) = b + ((j : ℕ) + 1 : ℕ) := by push_cast; ring
    apply sweep_after_hit m p fit s cells (b + 1) j (by simpa using hj)
    rw [harg]
    exact hlow

theorem sweep_occ_then_unknown (m : MathOps α) (p : Params α) (fit : PlaneCoeffs α)
    (s : ℤ) :
    ∀ (cells : List (PolarCell α)) (b : ℤ) (hit : Bool) (i j : ℕ), i < j →
      j < cells.length →
      ((sweepSeg m p fit s hit b cells).getD i emptyCell).idx = Label.OCCUPIED →
      ((cells.getD j emptyCell).count = 0 ∨
        (cells.getD j emptyCell).z_max - groundAt m p fit s (b + j) ≤ p.grid_min_height) →
      ((sweepSeg m p fit s hit b cells).getD j emptyCell).idx = Label.UNKNOWN
  | [], _, _, _, j, _, hj, _, _ => by simp at hj
  | c :: cells, b, hit, 0, j + 1, _, hj, hocc, hlow => by
    rw [sweepSeg] at hocc ⊢
    simp only [List.getD_cons_zero] at hocc
    simp only [List.getD_cons_succ] at hlow ⊢
    rw [sweepCellStep_occ_hit m p fit s b hit c hocc]
    have harg : b + 1 + (j : ℤ) = b + ((j : ℕ) + 1 : ℕ) := by push_cast; ring
    apply sweep_after_hit m p fit s cells (b + 1) j (by simpa using hj)
    rw [harg]
    exact hlow
  | c :: cells, b, hit, i + 1, j + 1, hij, hj, hocc, hlow => by
    rw [sweepSeg] at hocc ⊢
    simp only [List.getD_cons_succ] at hocc hlow ⊢
    have harg : b + 1 + (j : ℤ) = b + ((j : ℕ) + 1 : ℕ) := by push_cast; ring
    apply sweep_occ_then_unknown m p fit s cells (b + 1) _ i j (by omega)
      (by simpa using hj) hocc
    rw [harg]
    exact hlow


/-- Claim C1: in one segment's near-to-far sweep, once some cell is labeled
`OCCUPIED`, every later cell that is empty or whose height does not exceed
the obstacle threshold is labeled `UNKNOWN` (never `FREE`); and the segment
`[empty, occupied(height 0.5, threshold 0.2), empty, empty]` yields the
labels `[FREE, OCCUPIED, UNKNOWN, UNKNOWN]`. -/
theorem occlusion_monotone :
    (∀ (β : Type) [LinearOrderedField β] [FloorRing β] (m : MathOps β)
        (p : Params β) (fit : PlaneCoeffs β) (s : ℤ) (cells : List (PolarCell β))
        (i j : ℕ), i < j → j < cells.length →
      ((sweepSeg m p fit s false 0 cells).getD i emptyCell).idx = Label.OCCUPIED →
      ((cells.getD j emptyCell).count = 0 ∨
        (cells.getD j emptyCell).z_max - groundAt m p fit s j ≤ p.grid_min_height) →
      ((sweepSeg m p fit s false 0 cells).getD j emptyCell).idx = Label.UNKNOWN) ∧
    (sweepSeg qOps pDemo fitDemo 0 false 0 demoCells).map (fun c => c.idx) =
      [Label.FREE, Label.OCCUPIED, Label.UNKNOWN, Label.UNKNOWN] := by
  constructor
  · intro β _ _ m p fit s cells i j hij hj hocc hlow
    apply sweep_occ_then_unknown m p fit s cells 0 false i j hij hj hocc
    simpa using hlow
  · norm_num [demoCells, sweepSeg, sweepCellStep, groundAt,
      fromPolarCellToVeloCoords, qOps, pDemo, mkParams, cfgDemo, fitDemo,
      emptyCell, cTrunc]


theorem rasterStep_data (m : MathOps α) (p : Params α) (grid : Grid α)
    (st : (ℕ → ℤ) × List (VPoint α) × List (VPoint α)) (ji : ℕ × ℕ) :
    (rasterStep m p grid st ji).1 =
      Function.update st.1 (ji.1 * p.grid_width.toNat + ji.2)
        (labelValue (grid (fromVeloCoordsToPolarCell m p (rasterXY p ji.1 ji.2).1
          (rasterXY p ji.1 ji.2).2)).idx) := by
  unfold rasterStep
  cases h : (grid (fromVeloCoordsToPolarCell m p (rasterXY p ji.1 ji.2).1
      (rasterXY p ji.1 ji.2).2)).idx <;>
    simp [h, labelValue]

theorem raster_data_fold (m : MathOps α) (p : Params α) (grid : Grid α) :
    ∀ (l : List (ℕ × ℕ)) (st : (ℕ → ℤ) × List (VPoint α) × List (VPoint α)),
      (l.foldl (rasterStep m p grid) st).1 =
        l.foldl
          (fun d ji => Function.update d (ji.1 * p.grid_width.toNat + ji.2)
            (labelValue (grid (fromVeloCoordsToPolarCell m p (rasterXY p ji.1 ji.2).1
              (rasterXY p ji.1 ji.2).2)).idx))
          st.1
  | [], _ => rfl
  | ji :: l, st => by
    rw [List.foldl_cons, List.foldl_cons, raster_data_fold m p grid l,
      rasterStep_data]

theorem foldl_update_not_mem {β : Type} (key : β → ℕ) (val : β → ℤ) :
    ∀ (l : List β) (d : ℕ → ℤ) (k : ℕ), (∀ q ∈ l, key q ≠ k) →
      l.foldl (fun d q => Function.update d (key q) (val q)) d k = d k
  | [], _, _, _ => rfl
  | q :: l, d, k, h => by
    rw [List.foldl_cons,
      foldl_update_not_mem key val l _ k fun q' hq' => h q' (List.mem_cons_of_mem _ hq')]
    exact Function.update_noteq (Ne.symm (h q (List.mem_cons_self _ _))) _ _

theorem foldl_update_mem {β : Type} (key : β → ℕ) (val : β → ℤ) :
    ∀ (l : List β) (d : ℕ → ℤ) (q0 : β), q0 ∈ l →
      (∀ q ∈ l, key q = key q0 → val q = val q0) →
      l.foldl (fun d q => Function.update d (key q) (val q)) d (key q0) = val q0
  | [], _, _, h, _ => absurd h (List.not_mem_nil _)
  | q :: l, d, q0, hq0, hcong => by
    rw [List.foldl_cons]
    by_cases hl : ∀ q' ∈ l, key q' ≠ key q0
    · rw [foldl_update_not_mem key val l _ _ hl]
      rcases List.mem_cons.mp hq0 with rfl | hmem
      · rw [Function.update_same]
      · exact absurd rfl (hl q0 hmem)
    · push_neg at hl
      obtain ⟨q', hq', hkey⟩ := hl
      have hv : val q' = val q0 := hcong q' (List.mem_cons_of_mem _ hq') hkey
      rw [← hkey, ← hv]
      exact foldl_update_mem key val l _ q' hq'
        fun q hq h => (hcong q (List.mem_cons_of_mem _ hq) (h.trans hkey)).trans hv.symm

theorem initFold_not_mem (W : ℕ) :
    ∀ (l : List (ℕ × ℕ)) (d : ℕ → ℤ) (k : ℕ), (∀ q ∈ l, q.1 * W + q.2 ≠ k) →
      l.foldl (initStep W) d k = d k
  | [], _, _, _ => rfl
  | q :: l, d, k, h => by
    rw [List.foldl_cons,
      initFold_not_mem W l _ k fun q' hq' => h q' (List.mem_cons_of_mem _ hq')]
    unfold initStep
    by_cases hc : q.2 < q.1 ∨ W - q.1 ≤ q.2
    · rw [if_pos hc]
      exact Function.update_noteq (Ne.symm (h q (List.mem_cons_self _ _))) _ _
    · rw [if_neg hc]

theorem initFold_boundary (W : ℕ) :
    ∀ (l : List (ℕ × ℕ)) (d : ℕ → ℤ) (q0 : ℕ × ℕ), q0 ∈ l →
      (q0.2 < q0.1 ∨ W - q0.1 ≤ q0.2) →
      (∀ q ∈ l, q.1 * W + q.2 = q0.1 * W + q0.2 → q = q0) →
      l.foldl (initStep W) d (q0.1 * W + q0.2) = -1
  | [], _, _, h, _, _ => absurd h (List.not_mem_nil _)
  | q :: l, d, q0, hq0, hb, huniq => by
    rw [List.foldl_cons]
    by_cases hl : ∀ q' ∈ l, q'.1 * W + q'.2 ≠ q0.1 * W + q0.2
    · rw [initFold_not_mem W l _ _ hl]
      rcases List.mem_cons.mp hq0 with rfl | hmem
      · unfold initStep
        rw [if_pos hb, Function.update_same]
      · exact absurd rfl (hl q0 hmem)
    · push_neg at hl
      obtain ⟨q', hq', hkey⟩ := hl
      have : q' = q0 := huniq q' (List.mem_cons_of_mem _ hq') hkey
      subst this
      exact initFold_boundary W l _ q' hq' hb
        fun q hq h => huniq q (List.mem_cons_of_mem _ hq) h

/-- Flat raster indexing `j * W + i` is injective on in-row indices. -/
theorem rasterKey_inj {W j i j' i' : ℕ} (hi : i < W) (hi' : i' < W)
    (h : j * W + i = j' * W + i') : j = j' ∧ i = i' := by
  have hW : 0 < W := Nat.pos_of_ne_zero fun hz => by omega
  have e1 : ∀ a b : ℕ, b < W → (a * W + b) / W = a := fun a b hb => by
    rw [mul_comm, Nat.mul_add_div hW, Nat.div_eq_of_lt hb, add_zero]
  have e2 : ∀ a b : ℕ, b < W → (a * W + b) % W = b := fun a b hb => by
    rw [mul_comm, Nat.mul_add_mod, Nat.mod_eq_of_lt hb]
  exact ⟨by rw [← e1 j i hi, h, e1 j' i' hi'], by rw [← e2 j i hi, h, e2 j' i' hi']⟩

theorem mem_footprintPairs (p : Params α) (j i : ℕ) :
    (j, i) ∈ footprintPairs p ↔
      j < p.grid_height.toNat ∧ j ≤ i ∧ i < p.grid_width.toNat - j := by
  unfold footprintPairs
  rw [List.mem_flatMap]
  constructor
  · rintro ⟨j', hj', hmem⟩
    rw [List.mem_map] at hmem
    obtain ⟨i', hi', heq⟩ := hmem
    cases heq
    rw [List.mem_range] at hj'
    rw [List.mem_range'_1] at hi'
    omega
  · rintro ⟨hj, hji, hiw⟩
    exact ⟨j, List.mem_range.mpr hj,
      List.mem_map.mpr ⟨i, List.mem_range'_1.mpr ⟨hji, by omega⟩, rfl⟩⟩

theorem mem_allPairs (H W j i : ℕ) : (j, i) ∈ allPairs H W ↔ j < H ∧ i < W := by
  unfold allPairs
  rw [List.mem_flatMap]
  constructor
  · rintro ⟨j', hj', hmem⟩
    rw [List.mem_map] at hmem
    obtain ⟨i', hi', heq⟩ := hmem
    cases heq
    rw [List.mem_range] at hj' hi'
    exact ⟨hj', hi'⟩
  · rintro ⟨hj, hi⟩
    exact ⟨j, List.mem_range.mpr hj, List.mem_map.mpr ⟨i, List.mem_range.mpr hi, rfl⟩⟩

/-- Claim C6: a raster cell `(i, j)` with `i < j ∨ i ≥ width − j` is `-1`
right after construction and is never written by the per-frame
voxelization, whatever the frame's grid and incoming buffer. -/
theorem boundary_cells_fixed (m : MathOps α) (p : Params α) (grid : Grid α)
    (d : ℕ → ℤ) (i j : ℕ) (hj : j < p.grid_height.toNat)
    (hi : i < p.grid_width.toNat)
    (hb : i < j ∨ p.grid_width.toNat - j ≤ i) :
    initData p (j * p.grid_width.toNat + i) = -1 ∧
    (rasterize m p grid d).1 (j * p.grid_width.toNat + i) =
      d (j * p.grid_width.toNat + i) := by
  constructor
  · unfold initData
    exact initFold_boundary p.grid_width.toNat _ _ (j, i)
      ((mem_allPairs _ _ _ _).mpr ⟨hj, hi⟩) hb
      fun q hq hkey => by
        obtain ⟨a, b⟩ := q
        obtain ⟨hq1, hq2⟩ := (mem_allPairs _ _ a b).mp hq
        obtain ⟨h1, h2⟩ := rasterKey_inj hq2 hi hkey
        subst h1
        subst h2
        rfl
  · rw [rasterize, raster_data_fold]
    apply foldl_update_not_mem
    rintro ⟨j', i'⟩ hq hkey
    obtain ⟨hj', hji', hiw'⟩ := (mem_footprintPairs p j' i').mp hq
    obtain ⟨rfl, rfl⟩ := rasterKey_inj (by omega) hi hkey
    omega

/-- Claim C4: for a raster cell inside the triangular footprint the
voxelization writes 0 iff the backing polar cell's label is `FREE`, 50 iff
`UNKNOWN`, 100 iff `OCCUPIED`, and never `-1`. -/
theorem raster_label_correspondence (m : MathOps α) (p : Params α) (grid : Grid α)
    (d0 : ℕ → ℤ) (i j : ℕ) (hj : j < p.grid_height.toNat) (hji : j ≤ i)
    (hiw : i < p.grid_width.toNat - j) :
    ((rasterize m p grid d0).1 (j * p.grid_width.toNat + i) = 0 ↔
      (grid (fromVeloCoordsToPolarCell m p (rasterXY p j i).1
        (rasterXY p j i).2)).idx = Label.FREE) ∧
    ((rasterize m p grid d0).1 (j * p.grid_width.toNat + i) = 50 ↔
      (grid (fromVeloCoordsToPolarCell m p (rasterXY p j i).1
        (rasterXY p j i).2)).idx = Label.UNKNOWN) ∧
    ((rasterize m p grid d0).1 (j * p.grid_width.toNat + i) = 100 ↔
      (grid (fromVeloCoordsToPolarCell m p (rasterXY p j i).1
        (rasterXY p j i).2)).idx = Label.OCCUPIED) ∧
    (rasterize m p grid d0).1 (j * p.grid_width.toNat + i) ≠ -1 := by
  have hv : (rasterize m p grid d0).1 (j * p.grid_width.toNat + i) =
      labelValue (grid (fromVeloCoordsToPolarCell m p (rasterXY p j i).1
        (rasterXY p j i).2)).idx := by
    rw [rasterize, raster_data_fold]
    exact foldl_update_mem _ _ _ _ (j, i)
      ((mem_footprintPairs p j i).mpr ⟨hj, hji, hiw⟩)
      fun q hq hkey => by
        obtain ⟨j', i'⟩ := q
        obtain ⟨hj', hji', hiw'⟩ := (mem_footprintPairs p j' i').mp hq
        obtain ⟨rfl, rfl⟩ := rasterKey_inj (by omega) (by omega) hkey
        rfl
  rw [hv]
  cases (grid (fromVeloCoordsToPolarCell m p (rasterXY p j i).1
      (rasterXY p j i).2)).idx <;>
    simp [labelValue]

theorem pDemo_height_toNat : pDemo.grid_height.toNat = 2 := by
  have h : pDemo.grid_height = 2 := by norm_num [pDemo, mkParams, cfgDemo, cTrunc]
  rw [h]
  rfl

theorem pDemo_width_toNat : pDemo.grid_width.toNat = 4 := by
  have h : pDemo.grid_width = 4 := by norm_num [pDemo, mkParams, cfgDemo, cTrunc]
  rw [h]
  rfl

/-- Claim C6, witness: boundary cell `(i, j) = (0, 1)` of the demo raster is
`-1` after construction and voxelization leaves it untouched. -/
theorem boundary_cells_fixed_witness :
    initData pDemo (1 * pDemo.grid_width.toNat + 0) = -1 ∧
    (rasterize qOps pDemo lowCellGrid (initData pDemo)).1
        (1 * pDemo.grid_width.toNat + 0) =
      initData pDemo (1 * pDemo.grid_width.toNat + 0) :=
  boundary_cells_fixed qOps pDemo lowCellGrid (initData pDemo) 0 1
    (by norm_num [pDemo_height_toNat]) (by norm_num [pDemo_width_toNat])
    (Or.inl (by norm_num))

/-- Claim C4, witness: the correspondence at footprint cell `(0, 0)` of the
demo raster. -/
theorem raster_label_correspondence_witness :
    ((rasterize qOps pDemo lowCellGrid (initData pDemo)).1
        (0 * pDemo.grid_width.toNat + 0) = 0 ↔
      (lowCellGrid (fromVeloCoordsToPolarCell qOps pDemo (rasterXY pDemo 0 0).1
        (rasterXY pDemo 0 0).2)).idx = Label.FREE) ∧
    ((rasterize qOps pDemo lowCellGrid (initData pDemo)).1
        (0 * pDemo.grid_width.toNat + 0) = 50 ↔
      (lowCellGrid (fromVeloCoordsToPolarCell qOps pDemo (rasterXY pDemo 0 0).1
        (rasterXY pDemo 0 0).2)).idx = Label.UNKNOWN) ∧
    ((rasterize qOps pDemo lowCellGrid (initData pDemo)).1
        (0 * pDemo.grid_width.toNat + 0) = 100 ↔
      (lowCellGrid (fromVeloCoordsToPolarCell qOps pDemo (rasterXY pDemo 0 0).1
        (rasterXY pDemo 0 0).2)).idx = Label.OCCUPIED) ∧
    (rasterize qOps pDemo lowCellGrid (initData pDemo)).1
        (0 * pDemo.grid_width.toNat + 0) ≠ -1 :=
  raster_label_correspondence qOps pDemo lowCellGrid (initData pDemo) 0 0
    (by norm_num [pDemo_height_toNat]) (le_refl 0)
    (by norm_num [pDemo_width_toNat])

theorem updateCellStats_count (c : PolarCell α) (pt : VPoint α) :
    (updateCellStats c pt).count = c.count + 1 := by
  simp only [updateCellStats]
  split_ifs <;> rfl

theorem updateCellStats_of_zero (c : PolarCell α) (pt : VPoint α) (h : c.count = 0) :
    updateCellStats c pt =
      { count := 1, x_min := pt.x, y_min := pt.y, z_min := pt.z, z_max := pt.z,
        ground := c.ground, height := c.height, idx := c.idx } := by
  simp [updateCellStats, h]

theorem updateCellStats_of_pos (c : PolarCell α) (pt : VPoint α) (h : c.count ≠ 0) :
    updateCellStats c pt =
      { count := c.count + 1,
        x_min := if pt.z < c.z_min then pt.x else c.x_min,
        y_min := if pt.z < c.z_min then pt.y else c.y_min,
        z_min := if pt.z < c.z_min then pt.z else c.z_min,
        z_max := if c.z_max < pt.z then pt.z else c.z_max,
        ground := c.ground, height := c.height, idx := c.idx } := by
  have h1 : ¬ (c.count + 1 = 1) := by omega
  simp only [updateCellStats, h1, if_false, gt_iff_lt]
  by_cases h2 : pt.z < c.z_min <;> by_cases h3 : c.z_max < pt.z <;>
    simp [h2, h3]

/-- The binning pass, projected to one cell: the cell's final statistics are
the fold of `updateCellStats` over exactly the points routed to it. -/
theorem binCloud_cell (m : MathOps α) (p : Params α) :
    ∀ (pts : List (VPoint α)) (st : List (VPoint α) × Grid α) (c : ℤ × ℤ),
      (pts.foldl (binPoint m p) st).2 c =
        (pts.filter fun pt =>
            pointGate m p pt &&
              decide (fromVeloCoordsToPolarCell m p pt.x pt.y = c)).foldl
          updateCellStats (st.2 c)
  | [], _, _ => rfl
  | pt :: pts, st, c => by
    rw [List.foldl_cons, binCloud_cell m p pts, binPoint_eq_gate, List.filter_cons]
    by_cases hg : pointGate m p pt
    · by_cases hc : fromVeloCoordsToPolarCell m p pt.x pt.y = c
      · subst hc
        simp [hg, Function.update_same]
      · simp [hg, hc, Function.update_noteq (Ne.symm hc)]
    · simp [hg]

theorem foldl_stats_count :
    ∀ (l : List (VPoint α)) (c0 : PolarCell α),
      (l.foldl updateCellStats c0).count = c0.count + l.length
  | [], _ => by simp
  | pt :: l, c0 => by
    rw [List.foldl_cons, foldl_stats_count l, updateCellStats_count,
      List.length_cons]
    omega

/-- The statistics invariant of a nonempty fold: `z_min`/`z_max` are the
true extremes and `(x_min, y_min, z_min)` is a point of the list. -/
theorem foldl_stats_ok (l : List (VPoint α)) (hl : l ≠ []) :
    (∃ pt ∈ l, pt.x = (l.foldl updateCellStats emptyCell).x_min ∧
      pt.y = (l.foldl updateCellStats emptyCell).y_min ∧
      pt.z = (l.foldl updateCellStats emptyCell).z_min) ∧
    (∀ pt ∈ l, (l.foldl updateCellStats emptyCell).z_min ≤ pt.z ∧
      pt.z ≤ (l.foldl updateCellStats emptyCell).z_max) ∧
    (∃ pt ∈ l, pt.z = (l.foldl updateCellStats emptyCell).z_max) := by
  induction l using List.reverseRecOn with
  | nil => exact absurd rfl hl
  | append_singleton l pt IH =>
    simp only [List.foldl_append, List.foldl_cons, List.foldl_nil]
    rcases eq_or_ne l [] with rfl | hl0
    · simp only [List.foldl_nil, List.nil_append]
      rw [updateCellStats_of_zero _ _ (by simp [emptyCell])]
      refine ⟨⟨pt, by simp, rfl, rfl, rfl⟩, ?_, ⟨pt, by simp, rfl⟩⟩
      intro q hq
      simp at hq
      subst hq
      exact ⟨le_refl _, le_refl _⟩
    · obtain ⟨h1, h2, h3⟩ := IH hl0
      have hcpos : (l.foldl updateCellStats emptyCell).count ≠ 0 := by
        rw [foldl_stats_count]
        have := List.length_pos.mpr hl0
        simp only [emptyCell]
        omega
      rw [updateCellStats_of_pos _ _ hcpos]
      by_cases hlo : pt.z < (l.foldl updateCellStats emptyCell).z_min <;>
        by_cases hhi : (l.foldl updateCellStats emptyCell).z_max < pt.z
      · simp only [if_pos hlo, if_pos hhi]
        refine ⟨⟨pt, by simp, rfl, rfl, rfl⟩, ?_, ⟨pt, by simp, rfl⟩⟩
        intro q hq
        rcases List.mem_append.mp hq with hq | hq
        · obtain ⟨hq1, hq2⟩ := h2 q hq
          exact ⟨by linarith, by linarith⟩
        · simp at hq
          subst hq
          exact ⟨le_refl _, le_refl _⟩
      · simp only [if_pos hlo, if_neg hhi]
        refine ⟨⟨pt, by simp, rfl, rfl, rfl⟩, ?_, ?_⟩
        · intro q hq
          rcases List.mem_append.mp hq with hq | hq
          · obtain ⟨hq1, hq2⟩ := h2 q hq
            exact ⟨by linarith, hq2⟩
          · simp at hq
            subst hq
            exact ⟨le_refl _, by linarith⟩
        · obtain ⟨q, hq, hqz⟩ := h3
          exact ⟨q, List.mem_append_left _ hq, hqz⟩
      · simp only [if_neg hlo, if_pos hhi]
        refine ⟨?_, ?_, ⟨pt, by simp, rfl⟩⟩
        · obtain ⟨q, hq, hqx, hqy, hqz⟩ := h1
          exact ⟨q, List.mem_append_left _ hq, hqx, hqy, hqz⟩
        · intro q hq
          rcases List.mem_append.mp hq with hq | hq
          · obtain ⟨hq1, hq2⟩ := h2 q hq
            exact ⟨hq1, by linarith⟩
          · simp at hq
            subst hq
            exact ⟨by linarith, le_refl _⟩
      · simp only [if_neg hlo, if_neg hhi]
        refine ⟨?_, ?_, ?_⟩
        · obtain ⟨q, hq, hqx, hqy, hqz⟩ := h1
          exact ⟨q, List.mem_append_left _ hq, hqx, hqy, hqz⟩
        · intro q hq
          rcases List.mem_append.mp hq with hq | hq
          · exact h2 q hq
          · simp at hq
            subst hq
            exact ⟨by linarith, by linarith⟩
        · obtain ⟨q, hq, hqz⟩ := h3
          exact ⟨q, List.mem_append_left _ hq, hqz⟩

/-- Claim C7: after binning, a cell with `count > 0` has `z_min`/`z_max`
equal to the true minimum/maximum z over the points routed to it (hence
`z_min ≤ z_max`), and `(x_min, y_min)` are the coordinates of a point
achieving `z_min`. -/
theorem cell_stats (m : MathOps α) (p : Params α) (pts : List (VPoint α)) (s b : ℤ)
    (h : ((binCloud m p pts).2 (s, b)).count ≠ 0) :
    ((binCloud m p pts).2 (s, b)).z_min ≤ ((binCloud m p pts).2 (s, b)).z_max ∧
    (∃ pt ∈ routedTo m p pts s b,
      pt.x = ((binCloud m p pts).2 (s, b)).x_min ∧
      pt.y = ((binCloud m p pts).2 (s, b)).y_min ∧
      pt.z = ((binCloud m p pts).2 (s, b)).z_min) ∧
    (∀ pt ∈ routedTo m p pts s b,
      ((binCloud m p pts).2 (s, b)).z_min ≤ pt.z ∧
      pt.z ≤ ((binCloud m p pts).2 (s, b)).z_max) ∧
    (∃ pt ∈ routedTo m p pts s b, pt.z = ((binCloud m p pts).2 (s, b)).z_max) := by
  have hc : (binCloud m p pts).2 (s, b) =
      (routedTo m p pts s b).foldl updateCellStats emptyCell := by
    rw [binCloud, binCloud_cell]
    rfl
  have hne : routedTo m p pts s b ≠ [] := by
    intro hnil
    apply h
    rw [hc, hnil]
    rfl
  obtain ⟨h1, h2, h3⟩ := foldl_stats_ok (routedTo m p pts s b) hne
  rw [hc]
  refine ⟨?_, h1, h2, h3⟩
  obtain ⟨pt, hmem, hx, hy, hz⟩ := h1
  obtain ⟨hlo, hhi⟩ := h2 pt hmem
  rw [← hz]
  exact hhi

/-- Claim C7, witness: the single point `(1, 0, 1)` is binned into cell
`(2, 1)` of the demo configuration, and the statistics invariant holds
there. -/
theorem cell_stats_witness :
    ((binCloud qOps pDemo [⟨1, 0, 1⟩]).2 (2, 1)).z_min ≤
      ((binCloud qOps pDemo [⟨1, 0, 1⟩]).2 (2, 1)).z_max ∧
    (∃ pt ∈ routedTo qOps pDemo [⟨1, 0, 1⟩] 2 1,
      pt.x = ((binCloud qOps pDemo [⟨1, 0, 1⟩]).2 (2, 1)).x_min ∧
      pt.y = ((binCloud qOps pDemo [⟨1, 0, 1⟩]).2 (2, 1)).y_min ∧
      pt.z = ((binCloud qOps pDemo [⟨1, 0, 1⟩]).2 (2, 1)).z_min) ∧
    (∀ pt ∈ routedTo qOps pDemo [⟨1, 0, 1⟩] 2 1,
      ((binCloud qOps pDemo [⟨1, 0, 1⟩]).2 (2, 1)).z_min ≤ pt.z ∧
      pt.z ≤ ((binCloud qOps pDemo [⟨1, 0, 1⟩]).2 (2, 1)).z_max) ∧
    (∃ pt ∈ routedTo qOps pDemo [⟨1, 0, 1⟩] 2 1,
      pt.z = ((binCloud qOps pDemo [⟨1, 0, 1⟩]).2 (2, 1)).z_max) :=
  cell_stats qOps pDemo [⟨1, 0, 1⟩] 2 1 (by
    norm_num [binCloud, binPoint, fromVeloCoordsToPolarCell, pointGate,
      updateCellStats, qOps, pDemo, mkParams, cfgDemo, emptyCell, cTrunc,
      Function.update, id_eq])

theorem mkParams_segments (m : MathOps α) (cfg : Config α) :
    (mkParams m cfg).grid_segments = cfg.grid_segments := rfl

theorem mkParams_opening (m : MathOps α) (cfg : Config α) :
    (mkParams m cfg).lidar_opening_angle = m.pi / 4 := rfl

theorem mkParams_inv_angular (m : MathOps α) (cfg : Config α) :
    (mkParams m cfg).inv_angular_res = 2 * (cfg.grid_segments : α) / m.pi := rfl

theorem mkParams_inv_radial (m : MathOps α) (cfg : Config α) :
    (mkParams m cfg).inv_radial_res = 1 / cfg.grid_cell_size := rfl

theorem mkParams_bins (m : MathOps α) (cfg : Config α) :
    (mkParams m cfg).grid_bins =
      cTrunc (cfg.grid_max_range * m.sqrt 2 / cfg.grid_cell_size + 1) := rfl

/-- Positionally, the sweep sets every cell's `ground` from the plane, keeps
its `count`, and for a filled cell sets `height = z_max - ground`. -/
theorem sweepSeg_getD (m : MathOps α) (p : Params α) (fit : PlaneCoeffs α) (s : ℤ) :
    ∀ (cells : List (PolarCell α)) (hit : Bool) (b : ℤ) (j : ℕ), j < cells.length →
      ((sweepSeg m p fit s hit b cells).getD j emptyCell).ground =
          groundAt m p fit s (b + j) ∧
      ((sweepSeg m p fit s hit b cells).getD j emptyCell).count =
          (cells.getD j emptyCell).count ∧
      ((cells.getD j emptyCell).count ≠ 0 →
        ((sweepSeg m p fit s hit b cells).getD j emptyCell).height =
          (cells.getD j emptyCell).z_max - groundAt m p fit s (b + j))
  | [], _, _, j, hj => by simp at hj
  | c :: cells, hit, b, 0, _ => by
    rw [sweepSeg]
    simp only [List.getD_cons_zero, Nat.cast_zero, add_zero]
    unfold sweepCellStep
    by_cases h0 : c.count = 0
    · simp [h0]
    · by_cases hh : c.z_max - groundAt m p fit s b > p.grid_min_height <;>
        simp [h0, hh]
  | c :: cells, hit, b, j + 1, hj => by
    rw [sweepSeg]
    simp only [List.getD_cons_succ]
    have harg : b + 1 + (j : ℤ) = b + ((j : ℕ) + 1 : ℕ) := by push_cast; ring
    have h := sweepSeg_getD m p fit s cells (sweepCellStep m p fit s b hit c).2
      (b + 1) j (by simpa using hj)
    rw [harg] at h
    exact h

theorem rowOf_length (p : Params α) (grid : Grid α) (s : ℤ) :
    (rowOf p grid s).length = p.grid_bins.toNat := by
  rw [rowOf, List.length_map, List.length_range]

theorem rowOf_getD (p : Params α) (grid : Grid α) (s : ℤ) (j : ℕ)
    (hj : j < p.grid_bins.toNat) :
    (rowOf p grid s).getD j emptyCell = grid (s, (j : ℤ)) := by
  rw [rowOf, List.getD_eq_getElem?_getD, List.getElem?_map, List.getElem?_range hj]
  rfl

theorem mkParams_min_range (m : MathOps α) (cfg : Config α) :
    (mkParams m cfg).grid_min_range = cfg.grid_min_range := rfl

theorem mkParams_max_range (m : MathOps α) (cfg : Config α) :
    (mkParams m cfg).grid_max_range = cfg.grid_max_range := rfl

theorem mkParams_cell_size (m : MathOps α) (cfg : Config α) :
    (mkParams m cfg).grid_cell_size = cfg.grid_cell_size := rfl

/-- Claim C10: a point of the filtered cloud maps under
`fromVeloCoordsToPolarCell` (the same deterministic conversion the binning
used) to a cell index inside the polar table, its cell holds at least one
point, and the cell the partition step reads from the swept grid carries
exactly the `ground` and `height` the sweep computed for it. -/
theorem partition_lookup_safe (m : MathOps α) (cfg : Config α) (p : Params α)
    (fit : PlaneCoeffs α) (pts : List (VPoint α)) (pt : VPoint α)
    (hp : p = mkParams m cfg)
    (hseg : 0 < cfg.grid_segments) (hcell : 0 < cfg.grid_cell_size)
    (hmin : 0 ≤ cfg.grid_min_range) (hpi : 0 < m.pi) (hs2 : 1 ≤ m.sqrt 2)
    (hmem : pt ∈ (binCloud m p pts).1) :
    0 ≤ (fromVeloCoordsToPolarCell m p pt.x pt.y).1 ∧
    (fromVeloCoordsToPolarCell m p pt.x pt.y).1 < p.grid_segments ∧
    0 ≤ (fromVeloCoordsToPolarCell m p pt.x pt.y).2 ∧
    (fromVeloCoordsToPolarCell m p pt.x pt.y).2 < p.grid_bins ∧
    1 ≤ ((binCloud m p pts).2 (fromVeloCoordsToPolarCell m p pt.x pt.y)).count ∧
    (sweepGrid m p fit (binCloud m p pts).2
        (fromVeloCoordsToPolarCell m p pt.x pt.y)).ground =
      groundAt m p fit (fromVeloCoordsToPolarCell m p pt.x pt.y).1
        (fromVeloCoordsToPolarCell m p pt.x pt.y).2 ∧
    (sweepGrid m p fit (binCloud m p pts).2
        (fromVeloCoordsToPolarCell m p pt.x pt.y)).height =
      ((binCloud m p pts).2 (fromVeloCoordsToPolarCell m p pt.x pt.y)).z_max -
        groundAt m p fit (fromVeloCoordsToPolarCell m p pt.x pt.y).1
          (fromVeloCoordsToPolarCell m p pt.x pt.y).2 := by
  subst hp
  have hg : pointGate m (mkParams m cfg) pt = true := by
    rw [binCloud_filtered] at hmem
    exact (List.mem_filter.mp hmem).2
  have hptpts : pt ∈ pts := by
    rw [binCloud_filtered] at hmem
    exact (List.mem_filter.mp hmem).1
  rw [pointGate, decide_eq_true_eq] at hg
  obtain ⟨hang, ⟨hr1, hr2⟩, hz⟩ := hg
  rw [mkParams_min_range] at hr1
  rw [mkParams_max_range] at hr2
  rw [mkParams_opening] at hang
  have hA : (0 : α) < m.pi / 4 := by linarith
  obtain ⟨ht1, ht2⟩ := abs_lt.mp hang
  have hNpos : (0 : α) < (cfg.grid_segments : α) := by
    exact_mod_cast Int.cast_pos.mpr hseg
  have hinv : (0 : α) < 2 * (cfg.grid_segments : α) / m.pi := by positivity
  have hsegBound :
      0 ≤ cTrunc ((-m.atan2 pt.y pt.x + m.pi / 4) *
        (2 * (cfg.grid_segments : α) / m.pi)) ∧
      cTrunc ((-m.atan2 pt.y pt.x + m.pi / 4) *
        (2 * (cfg.grid_segments : α) / m.pi)) < cfg.grid_segments := by
    have hv0 : 0 < (-m.atan2 pt.y pt.x + m.pi / 4) := by linarith
    have hvlt : (-m.atan2 pt.y pt.x + m.pi / 4) *
        (2 * (cfg.grid_segments : α) / m.pi) < (cfg.grid_segments : α) := by
      have h2A : (-m.atan2 pt.y pt.x + m.pi / 4) < 2 * (m.pi / 4) := by linarith
      have hmul := mul_lt_mul_of_pos_right h2A hinv
      have hkey : 2 * (m.pi / 4) * (2 * (cfg.grid_segments : α) / m.pi) =
          (cfg.grid_segments : α) := by
        field_simp
        ring
      linarith
    have hv0' : (0 : α) ≤ (-m.atan2 pt.y pt.x + m.pi / 4) *
        (2 * (cfg.grid_segments : α) / m.pi) := le_of_lt (mul_pos hv0 hinv)
    rw [cTrunc_of_nonneg hv0']
    exact ⟨Int.floor_nonneg.mpr hv0', Int.floor_lt.mpr hvlt⟩
  have hr0 : 0 < m.sqrt (pt.x * pt.x + pt.y * pt.y) := lt_of_le_of_lt hmin hr1
  have hmax0 : 0 < cfg.grid_max_range := lt_trans hr0 hr2
  have hs2' : (0 : α) ≤ m.sqrt 2 := by linarith
  have hbinBound :
      0 ≤ cTrunc (m.sqrt (pt.x * pt.x + pt.y * pt.y) * (1 / cfg.grid_cell_size)) ∧
      cTrunc (m.sqrt (pt.x * pt.x + pt.y * pt.y) * (1 / cfg.grid_cell_size)) <
        cTrunc (cfg.grid_max_range * m.sqrt 2 / cfg.grid_cell_size + 1) := by
    have hb0 : (0 : α) ≤ m.sqrt (pt.x * pt.x + pt.y * pt.y) *
        (1 / cfg.grid_cell_size) := by positivity
    have hlt : m.sqrt (pt.x * pt.x + pt.y * pt.y) * (1 / cfg.grid_cell_size) <
        cfg.grid_max_range * m.sqrt 2 / cfg.grid_cell_size := by
      rw [mul_one_div]
      gcongr
      exact lt_of_lt_of_le hr2 (le_mul_of_one_le_right hmax0.le hs2)
    have hu0 : (0 : α) ≤ cfg.grid_max_range * m.sqrt 2 / cfg.grid_cell_size := by
      positivity
    rw [cTrunc_of_nonneg hb0, cTrunc_of_nonneg (by linarith), Int.floor_add_one]
    refine ⟨Int.floor_nonneg.mpr hb0, ?_⟩
    have hff := Int.floor_le_floor (le_of_lt hlt)
    omega
  have hk1 : 0 ≤ (fromVeloCoordsToPolarCell m (mkParams m cfg) pt.x pt.y).1 ∧
      (fromVeloCoordsToPolarCell m (mkParams m cfg) pt.x pt.y).1 <
        (mkParams m cfg).grid_segments := by
    unfold fromVeloCoordsToPolarCell
    by_cases hxy : pt.x = -pt.y
    · rw [if_pos hxy]
      dsimp only
      rw [mkParams_segments]
      omega
    · rw [if_neg hxy]
      dsimp only
      rw [mkParams_segments, mkParams_opening, mkParams_inv_angular]
      exact hsegBound
  have hk3 : 0 ≤ (fromVeloCoordsToPolarCell m (mkParams m cfg) pt.x pt.y).2 ∧
      (fromVeloCoordsToPolarCell m (mkParams m cfg) pt.x pt.y).2 <
        (mkParams m cfg).grid_bins := by
    unfold fromVeloCoordsToPolarCell
    by_cases hxy : pt.x = -pt.y
    · rw [if_pos hxy]
      dsimp only
      rw [mkParams_bins, mkParams_inv_radial]
      exact hbinBound
    · rw [if_neg hxy]
      dsimp only
      rw [mkParams_bins, mkParams_inv_radial]
      exact hbinBound
  have hcount : 1 ≤ ((binCloud m (mkParams m cfg) pts).2
      (fromVeloCoordsToPolarCell m (mkParams m cfg) pt.x pt.y)).count := by
    rw [binCloud, binCloud_cell m (mkParams m cfg) pts _
      (fromVeloCoordsToPolarCell m (mkParams m cfg) pt.x pt.y),
      foldl_stats_count]
    have hmem' : pt ∈ pts.filter fun q =>
        pointGate m (mkParams m cfg) q &&
          decide (fromVeloCoordsToPolarCell m (mkParams m cfg) q.x q.y =
            fromVeloCoordsToPolarCell m (mkParams m cfg) pt.x pt.y) := by
      rw [List.mem_filter]
      refine ⟨hptpts, ?_⟩
      rw [Bool.and_eq_true, decide_eq_true_eq]
      refine ⟨?_, rfl⟩
      rw [pointGate, decide_eq_true_eq]
      rw [mkParams_min_range, mkParams_max_range, mkParams_opening]
      exact ⟨hang, ⟨hr1, hr2⟩, hz⟩
    have hlen := List.length_pos.mpr (List.ne_nil_of_mem hmem')
    simp only [emptyCell]
    omega
  refine ⟨hk1.1, hk1.2, hk3.1, hk3.2, hcount, ?_, ?_⟩
  all_goals {
    have hif : sweepGrid m (mkParams m cfg) fit (binCloud m (mkParams m cfg) pts).2
        (fromVeloCoordsToPolarCell m (mkParams m cfg) pt.x pt.y) =
        (sweepSeg m (mkParams m cfg) fit
          (fromVeloCoordsToPolarCell m (mkParams m cfg) pt.x pt.y).1 false 0
          (rowOf (mkParams m cfg) (binCloud m (mkParams m cfg) pts).2
            (fromVeloCoordsToPolarCell m (mkParams m cfg) pt.x pt.y).1)).getD
          (fromVeloCoordsToPolarCell m (mkParams m cfg) pt.x pt.y).2.toNat
          emptyCell := by
      unfold sweepGrid
      rw [if_pos ⟨hk1.1, hk1.2, hk3.1, hk3.2⟩]
    have hjlt : (fromVeloCoordsToPolarCell m (mkParams m cfg) pt.x pt.y).2.toNat <
        (rowOf (mkParams m cfg) (binCloud m (mkParams m cfg) pts).2
          (fromVeloCoordsToPolarCell m (mkParams m cfg) pt.x pt.y).1).length := by
      rw [rowOf_length]
      have := hk3.1
      have := hk3.2
      omega
    obtain ⟨hgr, hcnt, hht⟩ := sweepSeg_getD m (mkParams m cfg) fit
      (fromVeloCoordsToPolarCell m (mkParams m cfg) pt.x pt.y).1
      (rowOf (mkParams m cfg) (binCloud m (mkParams m cfg) pts).2
        (fromVeloCoordsToPolarCell m (mkParams m cfg) pt.x pt.y).1)
      false 0 (fromVeloCoordsToPolarCell m (mkParams m cfg) pt.x pt.y).2.toNat hjlt
    have hcast : (((fromVeloCoordsToPolarCell m (mkParams m cfg) pt.x pt.y).2.toNat :
        ℤ)) = (fromVeloCoordsToPolarCell m (mkParams m cfg) pt.x pt.y).2 :=
      Int.toNat_of_nonneg hk3.1
    have hrow := rowOf_getD (mkParams m cfg) (binCloud m (mkParams m cfg) pts).2
      (fromVeloCoordsToPolarCell m (mkParams m cfg) pt.x pt.y).1
      (fromVeloCoordsToPolarCell m (mkParams m cfg) pt.x pt.y).2.toNat
      (by rw [rowOf_length] at hjlt; exact hjlt)
    rw [hcast, Prod.mk.eta] at hrow
    rw [hrow] at hcnt hht
    rw [hcast] at hgr hht
    first
    | rw [hif, hgr, zero_add]
    | (rw [hif]
       rw [hht (by omega), zero_add])
  }


/-- Claim C10, witness: the demo point passes the gate, lands in cell
`(2, 1)` of the demo configuration, and all lookup-safety conclusions hold
there. -/
theorem partition_lookup_safe_witness :
    0 ≤ (fromVeloCoordsToPolarCell qOps pDemo ptDemo.x ptDemo.y).1 ∧
    (fromVeloCoordsToPolarCell qOps pDemo ptDemo.x ptDemo.y).1 <
      pDemo.grid_segments ∧
    0 ≤ (fromVeloCoordsToPolarCell qOps pDemo ptDemo.x ptDemo.y).2 ∧
    (fromVeloCoordsToPolarCell qOps pDemo ptDemo.x ptDemo.y).2 <
      pDemo.grid_bins ∧
    1 ≤ ((binCloud qOps pDemo [ptDemo]).2
      (fromVeloCoordsToPolarCell qOps pDemo ptDemo.x ptDemo.y)).count ∧
    (sweepGrid qOps pDemo fitDemo (binCloud qOps pDemo [ptDemo]).2
        (fromVeloCoordsToPolarCell qOps pDemo ptDemo.x ptDemo.y)).ground =
      groundAt qOps pDemo fitDemo
        (fromVeloCoordsToPolarCell qOps pDemo ptDemo.x ptDemo.y).1
        (fromVeloCoordsToPolarCell qOps pDemo ptDemo.x ptDemo.y).2 ∧
    (sweepGrid qOps pDemo fitDemo (binCloud qOps pDemo [ptDemo]).2
        (fromVeloCoordsToPolarCell qOps pDemo ptDemo.x ptDemo.y)).height =
      ((binCloud qOps pDemo [ptDemo]).2
        (fromVeloCoordsToPolarCell qOps pDemo ptDemo.x ptDemo.y)).z_max -
        groundAt qOps pDemo fitDemo
          (fromVeloCoordsToPolarCell qOps pDemo ptDemo.x ptDemo.y).1
          (fromVeloCoordsToPolarCell qOps pDemo ptDemo.x ptDemo.y).2 :=
  partition_lookup_safe qOps cfgDemo pDemo fitDemo [ptDemo] ptDemo rfl
    (by norm_num [cfgDemo]) (by norm_num [cfgDemo]) (by norm_num [cfgDemo])
    (by norm_num [qOps]) (by norm_num [qOps])
    (by
      rw [binCloud_filtered, List.mem_filter]
      refine ⟨by simp, ?_⟩
      rw [pointGate, decide_eq_true_eq]
      norm_num [qOps, pDemo, mkParams, cfgDemo, ptDemo])


theorem realOps_pi : realOps.pi = Real.pi := rfl

theorem realOps_sqrt : realOps.sqrt = Real.sqrt := rfl

/-- Claim C8, counterexample: the valid cell index `(segment, bin) = (0, 0)`
does not round-trip: its representative coordinates are the origin, where
`x == -y` forces the recovered segment to `grid_segments - 1 = 3`. -/
theorem roundtrip_cex :
    (0 : ℤ) < pDemoR.grid_segments ∧ (0 : ℤ) < pDemoR.grid_bins ∧
    fromVeloCoordsToPolarCell realOps pDemoR
        (fromPolarCellToVeloCoords realOps pDemoR 0 0).1
        (fromPolarCellToVeloCoords realOps pDemoR 0 0).2 = (3, 0) ∧
    ((3 : ℤ), (0 : ℤ)) ≠ ((0 : ℤ), (0 : ℤ)) := by
  refine ⟨by simp only [pDemoR]; rw [mkParams_segments]; norm_num [cfgDemoR],
    ?_, ?_, by decide⟩
  · simp only [pDemoR]
    rw [mkParams_bins, realOps_sqrt,
      cTrunc_of_nonneg (by norm_num [cfgDemoR] <;> positivity)]
    have h1 : (1 : ℝ) ≤ cfgDemoR.grid_max_range * Real.sqrt 2 /
        cfgDemoR.grid_cell_size + 1 := by
      norm_num [cfgDemoR] <;> positivity
    have hfl : (1 : ℤ) ≤ ⌊cfgDemoR.grid_max_range * Real.sqrt 2 /
        cfgDemoR.grid_cell_size + 1⌋ := Int.le_floor.mpr (by exact_mod_cast h1)
    omega
  · have hPC : fromPolarCellToVeloCoords realOps pDemoR 0 0 = (0, 0) := by
      unfold fromPolarCellToVeloCoords
      simp
    rw [hPC]
    unfold fromVeloCoordsToPolarCell
    rw [if_pos (by norm_num : (0 : ℝ) = -0)]
    simp only [pDemoR]
    rw [mkParams_segments]
    have hbin : cTrunc (realOps.sqrt ((0 : ℝ) * 0 + 0 * 0) *
        (mkParams realOps cfgDemoR).inv_radial_res) = 0 := by
      rw [mkParams_inv_radial, realOps_sqrt]
      norm_num [cTrunc]
    rw [hbin]
    norm_num [cfgDemoR]

/-- Claim C8 (amended): for every valid cell index with `bin ≥ 1`,
converting with `fromPolarCellToVeloCoords` and back with
`fromVeloCoordsToPolarCell` returns the same `(segment, bin)`; the `bin = 0`
indices all collapse to the origin, where the recovered segment is forced to
`grid_segments - 1`. -/
theorem roundtrip_cell_amended (cfg : Config ℝ) (seg bin : ℤ)
    (hcell : 0 < cfg.grid_cell_size) (hseg : 0 < cfg.grid_segments)
    (h0 : 0 ≤ seg) (h1 : seg < cfg.grid_segments) (hb1 : 1 ≤ bin)
    (hb2 : bin < (mkParams realOps cfg).grid_bins) :
    fromVeloCoordsToPolarCell realOps (mkParams realOps cfg)
        (fromPolarCellToVeloCoords realOps (mkParams realOps cfg) seg bin).1
        (fromPolarCellToVeloCoords realOps (mkParams realOps cfg) seg bin).2 =
      (seg, bin) := by
  have hpi := Real.pi_pos
  have hN : (0 : ℝ) < (cfg.grid_segments : ℝ) := by exact_mod_cast hseg
  have hsegR : (0 : ℝ) ≤ (seg : ℝ) := by exact_mod_cast h0
  have hsegR' : (seg : ℝ) < (cfg.grid_segments : ℝ) := by exact_mod_cast h1
  have hbinR : (1 : ℝ) ≤ (bin : ℝ) := by exact_mod_cast hb1
  set A : ℝ := (seg : ℝ) * Real.pi / (2 * (cfg.grid_segments : ℝ)) - Real.pi / 4
    with hA
  set M : ℝ := (bin : ℝ) * cfg.grid_cell_size with hM
  have hMpos : 0 < M := by
    rw [hM]
    nlinarith
  have hPC : fromPolarCellToVeloCoords realOps (mkParams realOps cfg) seg bin =
      (Real.cos A * M, -Real.sin A * M) := by
    unfold fromPolarCellToVeloCoords
    rw [mkParams_inv_radial, mkParams_inv_angular, mkParams_opening, realOps_pi,
      div_div_eq_mul_div, div_div_eq_mul_div, div_one]
    rfl
  -- bounds on the angle
  have hA1 : -(Real.pi / 4) ≤ A := by
    rw [hA]
    have : 0 ≤ (seg : ℝ) * Real.pi / (2 * (cfg.grid_segments : ℝ)) := by positivity
    linarith
  have hA2 : A < Real.pi / 4 := by
    rw [hA]
    have : (seg : ℝ) * Real.pi / (2 * (cfg.grid_segments : ℝ)) < Real.pi / 2 := by
      rw [div_lt_iff (by positivity)]
      nlinarith
    linarith
  have hcos : 0 < Real.cos A :=
    Real.cos_pos_of_mem_Ioo ⟨by linarith, by linarith⟩
  have hx : 0 < Real.cos A * M := mul_pos hcos hMpos
  have hsinlt : Real.sin A < Real.cos A := by
    have hs1 : Real.sin A < Real.sin (Real.pi / 4) := by
      apply Real.strictMonoOn_sin ⟨by linarith, by linarith⟩
        ⟨by linarith, by linarith⟩ hA2
    have hs2 : Real.cos (Real.pi / 4) ≤ Real.cos A := by
      rw [← Real.cos_abs A]
      apply Real.cos_le_cos_of_nonneg_of_le_pi (abs_nonneg A) (by linarith)
      rw [abs_le]
      exact ⟨hA1, le_of_lt hA2⟩
    rw [Real.sin_pi_div_four] at hs1
    rw [Real.cos_pi_div_four] at hs2
    linarith
  have hxny : Real.cos A * M ≠ -(-Real.sin A * M) := by
    intro h
    rw [neg_mul, neg_neg] at h
    have := mul_right_cancel₀ (ne_of_gt hMpos) h
    linarith
  -- the recovered angle
  have hatan : realOps.atan2 (-Real.sin A * M) (Real.cos A * M) = -A := by
    show atan2R (-Real.sin A * M) (Real.cos A * M) = -A
    rw [atan2R, if_pos hx]
    have hdiv : -Real.sin A * M / (Real.cos A * M) = -Real.tan A := by
      rw [mul_div_mul_right _ _ (ne_of_gt hMpos), Real.tan_eq_sin_div_cos,
        neg_div]
    rw [hdiv, Real.arctan_neg, Real.arctan_tan (by linarith) (by linarith)]
  -- the recovered radius
  have hsq : Real.cos A * M * (Real.cos A * M) +
      -Real.sin A * M * (-Real.sin A * M) = M ^ 2 := by
    have hsc := Real.sin_sq_add_cos_sq A
    nlinarith
  have hmag : Real.sqrt (Real.cos A * M * (Real.cos A * M) +
      -Real.sin A * M * (-Real.sin A * M)) = M := by
    rw [hsq, Real.sqrt_sq hMpos.le]
  -- assemble
  rw [hPC]
  unfold fromVeloCoordsToPolarCell
  rw [if_neg hxny]
  have e2 : cTrunc (realOps.sqrt (Real.cos A * M * (Real.cos A * M) +
      -Real.sin A * M * (-Real.sin A * M)) *
        (mkParams realOps cfg).inv_radial_res) = bin := by
    rw [realOps_sqrt, hmag, mkParams_inv_radial, hM]
    have : (bin : ℝ) * cfg.grid_cell_size * (1 / cfg.grid_cell_size) =
        (bin : ℝ) := by
      field_simp
    rw [this, cTrunc_of_nonneg (by linarith), Int.floor_intCast]
  have e1 : cTrunc ((-realOps.atan2 (-Real.sin A * M) (Real.cos A * M) +
      (mkParams realOps cfg).lidar_opening_angle) *
        (mkParams realOps cfg).inv_angular_res) = seg := by
    rw [hatan, neg_neg, mkParams_opening, mkParams_inv_angular, realOps_pi]
    have hval : (A + Real.pi / 4) * (2 * (cfg.grid_segments : ℝ) / Real.pi) =
        (seg : ℝ) := by
      rw [hA]
      field_simp
      ring
    rw [hval, cTrunc_of_nonneg hsegR, Int.floor_intCast]
  rw [e1, e2]

/-- Claim C8 (amended), witness: cell `(2, 1)` of the real demo
configuration round-trips to itself. -/
theorem roundtrip_cell_amended_witness :
    fromVeloCoordsToPolarCell realOps (mkParams realOps cfgDemoR)
        (fromPolarCellToVeloCoords realOps (mkParams realOps cfgDemoR) 2 1).1
        (fromPolarCellToVeloCoords realOps (mkParams realOps cfgDemoR) 2 1).2 =
      (2, 1) :=
  roundtrip_cell_amended cfgDemoR 2 1 (by norm_num [cfgDemoR])
    (by norm_num [cfgDemoR]) (by norm_num) (by norm_num [cfgDemoR]) (by norm_num)
    (by
      rw [mkParams_bins, realOps_sqrt,
        cTrunc_of_nonneg (by norm_num [cfgDemoR] <;> positivity),
        Int.floor_add_one]
      have h2 : (1 : ℝ) ≤ cfgDemoR.grid_max_range * Real.sqrt 2 /
          cfgDemoR.grid_cell_size := by
        norm_num [cfgDemoR]
        nlinarith [Real.sq_sqrt (by norm_num : (0 : ℝ) ≤ 2), Real.sqrt_nonneg 2]
      have hfl : (1 : ℤ) ≤ ⌊cfgDemoR.grid_max_range * Real.sqrt 2 /
          cfgDemoR.grid_cell_size⌋ := Int.le_floor.mpr (by exact_mod_cast h2)
      omega)

end SensorProcessing
